import Mathlib

/-!
# Verification of the `bufout` core

A shallow embedding of the three core components of the `bufout` package:

* `createPrefixingTransform` (src/PrefixingTransform.ts) — the line-prefixing
  transform ("LineFramer" in the design document);
* `createMultiBufferedTransform` (src/MultiBufferedTransform.ts) — the
  order-preserving multi-source buffer ("StreamMultiplexBuffer");
* `spawn` (src/spawn.ts) — the process-lifecycle coordinator: its
  `determineStream` / `transformStdio` flush wiring, its `SpawnFailure`
  classification and message, and its host-signal forwarding hooks.

Chunks are modelled as decoded text (`List Char` for the prefixing transform,
`String` for the opaque chunks held by the buffer); multi-byte encoding issues
are an explicit non-goal of the design.  Stateful stream code is modelled by
explicit state passing; pushes into output streams are recorded in an
observation list.
-/

namespace Bufout

/-! ## LineFramer (`createPrefixingTransform`)

The source transform body is

```
const text = chunk.toString(encoding);
const lines = text.split("\n");
const remaining = lines.pop();
for (const line of lines) {
  if (needsPrefix) { this.push(prefix); needsPrefix = false; }
  this.push(line + "\n");
  needsPrefix = true;
}
if (remaining) {
  if (needsPrefix) { this.push(prefix); needsPrefix = false; }
  this.push(remaining);
}
```

`splitOnSep` is JavaScript's `String.prototype.split` on a single-character
separator (it always returns at least one, possibly empty, segment);
`popLast` is `lines.pop()` returning the mutated array together with the
popped element; `emitLines` is the `for` loop over the complete lines;
`prefixStep` is one call of the `transform` callback, mapping the
`needsPrefix` state and the chunk to the emitted text and the new state. -/

/-- JavaScript `text.split(sep)` for a one-character separator:
`"".split` gives `[""]`, a trailing separator gives a trailing `""`. -/
def splitOnSep (sep : Char) : List Char → List (List Char)
  | [] => [[]]
  | c :: cs =>
    let rest := splitOnSep sep cs
    if c = sep then [] :: rest
    else (c :: rest.headD []) :: rest.tail

/-- `lines.pop()`: all segments but the last, together with the last
(the "remaining" text after the final separator). -/
def popLast : List (List Char) → List (List Char) × List Char
  | [] => ([], [])
  | [s] => ([], s)
  | s :: rest => (s :: (popLast rest).1, (popLast rest).2)

/-- The `for (const line of lines)` loop: emit (prefix if owed) ++ line ++
separator for each complete line, leaving the prefix owed after each. -/
def emitLines (sep : Char) (pre : List Char) : Bool → List (List Char) → List Char × Bool
  | np, [] => ([], np)
  | np, l :: ls =>
    let tailOut := emitLines sep pre true ls
    ((if np then pre else []) ++ l ++ [sep] ++ tailOut.1, tailOut.2)

/-- One invocation of the `transform` callback of `createPrefixingTransform`:
given the `needsPrefix` state and the decoded chunk, the emitted text and the
state after the call. -/
def prefixStep (sep : Char) (pre : List Char) (np : Bool) (text : List Char) :
    List Char × Bool :=
  let lines := splitOnSep sep text
  let p := popLast lines
  let e := emitLines sep pre np p.1
  if p.2 = [] then e
  else (e.1 ++ (if e.2 then pre else []) ++ p.2, false)

/-- Feeding a sequence of chunks through the transform, threading the
`needsPrefix` state and concatenating the emitted output. -/
def processChunks (sep : Char) (pre : List Char) (np : Bool) :
    List (List Char) → List Char × Bool
  | [] => ([], np)
  | c :: cs =>
    let e := prefixStep sep pre np c
    let rest := processChunks sep pre e.2 cs
    (e.1 ++ rest.1, rest.2)

/-! ## StreamMultiplexBuffer (`createMultiBufferedTransform`)

The source keeps one shared `buffer : [unknown, Transform][]`; each output
`Transform` appends `[chunk, this]` on write; `inputPerOutput` maps each
output transform back to the input stream it was created for.

```
flush(stream) {
  for (const [chunk, transform] of buffer.splice(0, buffer.length)) {
    if (stream && inputPerOutput.get(transform) !== stream) continue;
    transform.push(chunk);
  }
},
clear() { buffer.splice(0, buffer.length); },
destroy() { for (const r of this.outputs) r.destroy(); },
```

Input streams are identified by values of an arbitrary type `σ` with
decidable (object-identity) equality; the output transform created for the
`i`-th input is identified by the index `i`.  `pushed` records, in order,
every chunk pushed into a live output transform together with that
transform's index; a push into a destroyed stream delivers nothing (the
design document: a flush issued after `destroy` has no observable effect). -/

/-- State of one `createMultiBufferedTransform` pipeline. -/
structure MBTState (σ : Type) where
  /-- The input streams, in registration order (`inputPerOutput` maps the
  `i`-th output transform to `inputs[i]`). -/
  inputs : List σ
  /-- The single shared FIFO of (chunk, output-transform index) pairs. -/
  buffer : List (String × Nat)
  /-- Observation: chunks pushed into live output transforms, in push order. -/
  pushed : List (String × Nat)
  /-- Whether `destroy()` has run (all output streams destroyed). -/
  destroyed : Bool

/-- The state just after `createMultiBufferedTransform(inputs)`. -/
def mbtInit {σ : Type} (inputs : List σ) : MBTState σ :=
  ⟨inputs, [], [], false⟩

/-- The `write` callback of the `i`-th output transform: append the chunk,
tagged with the transform, to the shared buffer. -/
def mbtWrite {σ : Type} (st : MBTState σ) (i : Nat) (c : String) : MBTState σ :=
  { st with buffer := st.buffer ++ [(c, i)] }

/-- The `stream && inputPerOutput.get(transform) !== stream` test of `flush`:
a chunk tagged with output transform `i` survives the selector `sel` iff no
selector is given or the selector is the very input stream `inputs[i]`. -/
def selHits {σ : Type} [DecidableEq σ] (inputs : List σ) (sel : Option σ)
    (i : Nat) : Bool :=
  match sel with
  | none => true
  | some s => decide (inputs[i]? = some s)

/-- `flush(stream?)`: splice out the whole buffer; push every chunk passing
the selector into its own output transform.  Pushes into destroyed streams
deliver nothing. -/
def mbtFlush {σ : Type} [DecidableEq σ] (sel : Option σ) (st : MBTState σ) :
    MBTState σ :=
  { st with
    buffer := []
    pushed := st.pushed ++
      if st.destroyed then []
      else st.buffer.filter fun p => selHits st.inputs sel p.2 }

/-- `clear()`: drop all buffered chunks, delivering nothing. -/
def mbtClear {σ : Type} (st : MBTState σ) : MBTState σ :=
  { st with buffer := [] }

/-- `destroy()`: destroy every output stream. -/
def mbtDestroy {σ : Type} (st : MBTState σ) : MBTState σ :=
  { st with destroyed := true }

/-- An interleaved arrival sequence: each element is a chunk tagged with the
channel it arrives on, written into the buffer in global arrival order. -/
def runWrites {σ : Type} (st : MBTState σ) (arrivals : List (String × Nat)) :
    MBTState σ :=
  arrivals.foldl (fun s p => mbtWrite s p.2 p.1) st

/-- The chunks the `i`-th output sink has received, in order. -/
def sinkReceived {σ : Type} (i : Nat) (st : MBTState σ) : List String :=
  (st.pushed.filter fun p => p.2 == i).map Prod.fst

/-! ## Process-lifecycle coordinator (`spawn`)

`transformStdio` in buffered mode builds a `createMultiBufferedTransform`
over `[child.stdout, child.stderr]` and returns the flush capability

```
(stream = "both") => { transform.flush(determineStream(stream)); transform.destroy(); }
```

where `determineStream` maps `"stdout"` to `process.stdout`, `"stderr"` to
`process.stdout` as well (the source returns `process.stdout` in both
branches), and `"both"` to `undefined`.  In inherit mode the returned flush
capability unconditionally throws.  Stream objects are modelled as a closed
enumeration of the four distinct stream identities involved. -/

/-- The distinct stream object identities `spawn` wires together. -/
inductive StreamObj where
  | childStdout
  | childStderr
  | hostStdout
  | hostStderr
deriving DecidableEq

/-- The `"stdout" | "stderr" | "both"` selector of `flushOutput`. -/
inductive StreamSel where
  | stdout
  | stderr
  | both
deriving DecidableEq

/-- `determineStream` from src/spawn.ts, faithfully: the `"stderr"` branch of
the source also returns `process.stdout`. -/
def determineStream : StreamSel → Option StreamObj
  | .stdout => some .hostStdout
  | .stderr => some .hostStdout
  | .both => none

/-- The input streams of the buffered-mode multiplex buffer:
`[child.stdout, child.stderr]`. -/
def spawnBufferInputs : List StreamObj :=
  [.childStdout, .childStderr]

/-- The buffered-mode multiplex buffer as `transformStdio` creates it. -/
def spawnBufferInit : MBTState StreamObj :=
  mbtInit spawnBufferInputs

/-- The buffered-mode flush capability handed to `SpawnFailure`:
`transform.flush(determineStream(stream)); transform.destroy();`. -/
def flushOutputBuffered (sel : StreamSel) (st : MBTState StreamObj) :
    MBTState StreamObj :=
  mbtDestroy (mbtFlush (determineStream sel) st)

/-- The `outputMode` option of `spawn`. -/
inductive OutputMode where
  | inherit
  | buffered
deriving DecidableEq

/-- `SpawnFailure.flushOutput(stream)` invoking the flush capability captured
for the launch: in inherit mode the capability throws unconditionally; in
buffered mode it flushes with `determineStream`'s selector and destroys the
output streams. -/
def spawnFlushOutput (mode : OutputMode) (sel : StreamSel)
    (st : MBTState StreamObj) : Except String (MBTState StreamObj) :=
  match mode with
  | .inherit => .error "Switch to 'buffered' output mode to flush buffers"
  | .buffered => .ok (flushOutputBuffered sel st)

/-- The message the `SpawnFailure` constructor builds. -/
def spawnFailureMessage (command : String) (code : Option Int)
    (signal : Option String) : String :=
  "Running '" ++ command ++ "' failed" ++
    (match code with
     | some c => " (code = " ++ toString c ++ ")"
     | none => "") ++
    (match signal with
     | some s => " (signal = " ++ s ++ ")"
     | none => "")

/-- The data a `SpawnFailure` carries: command, arguments, exit code,
terminating signal, the captured flush capability, and the message. -/
structure SpawnFailureModel where
  command : String
  args : List String
  code : Option Int
  signal : Option String
  flushCap : OutputMode
  message : String
deriving DecidableEq

/-- How the promise returned by `spawn` settles on child exit. -/
inductive ExitOutcome where
  | resolved
  | rejected (failure : SpawnFailureModel)
deriving DecidableEq

/-- The `child.once("exit", (code, signal) => ...)` handler: resolve on
`code === 0 && signal === null`, otherwise reject with a `SpawnFailure`. -/
def classifyExit (command : String) (args : List String) (cap : OutputMode)
    (code : Option Int) (signal : Option String) : ExitOutcome :=
  if code = some 0 ∧ signal = none then .resolved
  else .rejected ⟨command, args, code, signal, cap,
    spawnFailureMessage command code signal⟩

/-! ## Host-signal forwarding hooks

```
const killChild = () => child.kill();            // default signal SIGTERM
const interruptChild = () => child.kill("SIGINT");
process.once("exit", killChild);
process.once("SIGINT", interruptChild);
...
child.once("exit", (code, signal) => {
  process.off("exit", killChild);
  process.off("SIGINT", interruptChild);
  ...
```

`process.once` registers a hook that fires at most once (it deregisters
itself when it fires); observing the child's exit deregisters both hooks.
The event-driven execution is modelled as a transition system over the
possible events delivered to the coordinator. -/

/-- Signals the coordinator can forward to the child. -/
inductive HostSignal where
  | sigint
  | sigterm
deriving DecidableEq

/-- Events the host platform can deliver to the coordinator. -/
inductive CoordEvent where
  | hostExit
  | hostInterrupt
  | childExit
deriving DecidableEq

/-- Forwarding-hook state of one launch: which hooks are registered, whether
the child's exit has been observed, and the signals forwarded so far. -/
structure CoordState where
  exitHook : Bool
  interruptHook : Bool
  childExited : Bool
  sent : List HostSignal
deriving DecidableEq

/-- State right after `spawn` registered both hooks. -/
def coordInit : CoordState :=
  ⟨true, true, false, []⟩

/-- One event: a registered `once` hook fires (forwarding its signal and
deregistering itself); observing the child's exit deregisters both hooks. -/
def coordStep (st : CoordState) : CoordEvent → CoordState
  | .hostExit =>
    if st.exitHook then
      { st with exitHook := false, sent := st.sent ++ [.sigterm] }
    else st
  | .hostInterrupt =>
    if st.interruptHook then
      { st with interruptHook := false, sent := st.sent ++ [.sigint] }
    else st
  | .childExit =>
    { st with exitHook := false, interruptHook := false, childExited := true }

/-- Running a whole event trace from the initial state. -/
def coordRun (events : List CoordEvent) : CoordState :=
  events.foldl coordStep coordInit

/-- The number of times a given signal occurs in a forwarded-signal list. -/
def countSig (x : HostSignal) : List HostSignal → Nat
  | [] => 0
  | s :: rest => (if s = x then 1 else 0) + countSig x rest

/-- The exactly-once / no-respawn invariant maintained by the hook wiring. -/
def CoordInv (s : CoordState) : Prop :=
  (s.childExited = true → s.exitHook = false ∧ s.interruptHook = false) ∧
  (s.interruptHook = true → countSig .sigint s.sent = 0) ∧
  (s.exitHook = true → countSig .sigterm s.sent = 0) ∧
  countSig .sigint s.sent ≤ 1 ∧ countSig .sigterm s.sent ≤ 1

/-! ## Basic lemmas -/

/-- `splitOnSep` never returns the empty list (JS `split` always returns at
least one segment). -/
theorem splitOnSep_ne_nil (sep : Char) (text : List Char) :
    splitOnSep sep text ≠ [] := by
  cases text with
  | nil => simp [splitOnSep]
  | cons c cs =>
    simp only [splitOnSep]
    split <;> simp

/-- The transform emits nothing and keeps its state on an empty chunk. -/
theorem prefixStep_nil (sep : Char) (pre : List Char) (np : Bool) :
    prefixStep sep pre np [] = ([], np) := rfl

/-- Unfolding one character of a chunk: the head character is emitted after
the owed prefix (if any), and the rest of the chunk is processed with the
state the head character leaves behind (owed exactly when the head is the
separator). -/
theorem prefixStep_cons (sep : Char) (pre : List Char) (np : Bool) (c : Char)
    (cs : List Char) :
    prefixStep sep pre np (c :: cs) =
      ((if np then pre else []) ++
          c :: (prefixStep sep pre (if c = sep then true else false) cs).1,
        (prefixStep sep pre (if c = sep then true else false) cs).2) := by
  obtain ⟨r, rs, hr⟩ := List.exists_cons_of_ne_nil (splitOnSep_ne_nil sep cs)
  by_cases h : c = sep
  · subst h
    simp only [prefixStep, splitOnSep, if_pos rfl, hr, popLast, emitLines]
    split
    · simp
    · simp
  · cases rs with
    | nil =>
      simp only [prefixStep, splitOnSep, if_neg h, hr, List.headD_cons,
        List.tail_cons, popLast, emitLines, if_pos rfl]
      split
      · simp_all
      · by_cases hr0 : r = [] <;> simp_all
    | cons q qs =>
      simp only [prefixStep, splitOnSep, if_neg h, hr, List.headD_cons,
        List.tail_cons, popLast, emitLines, if_pos rfl]
      split
      · simp
      · simp

/-- Processing a concatenation of two texts in one call equals processing the
two pieces in successive calls, threading the `needsPrefix` state. -/
theorem prefixStep_append (sep : Char) (pre : List Char) (s t : List Char)
    (np : Bool) :
    prefixStep sep pre np (s ++ t) =
      ((prefixStep sep pre np s).1 ++
          (prefixStep sep pre (prefixStep sep pre np s).2 t).1,
        (prefixStep sep pre (prefixStep sep pre np s).2 t).2) := by
  induction s generalizing np with
  | nil => simp [prefixStep_nil]
  | cons c s ih =>
    rw [List.cons_append, prefixStep_cons, prefixStep_cons, ih]
    simp

/-- Feeding any list of chunks through the transform, starting from any
`needsPrefix` state, emits exactly what feeding their concatenation as a
single chunk emits, and ends in the same state. -/
theorem processChunks_eq_flatten (sep : Char) (pre : List Char)
    (chunks : List (List Char)) (np : Bool) :
    processChunks sep pre np chunks = prefixStep sep pre np chunks.flatten := by
  induction chunks generalizing np with
  | nil => simp [processChunks, prefixStep_nil]
  | cons c cs ih =>
    simp only [processChunks, List.flatten_cons, prefixStep_append, ih]

/-- After processing a nonempty chunk, the prefix is owed iff the chunk's last
character is the separator. -/
theorem prefixStep_snd_cons (sep : Char) (pre : List Char) (np : Bool)
    (c : Char) (cs : List Char) :
    ((prefixStep sep pre np (c :: cs)).2 = true ↔
      (c :: cs).getLast? = some sep) := by
  induction cs generalizing np c with
  | nil =>
    rw [prefixStep_cons]
    by_cases h : c = sep <;> simp [prefixStep_nil, h]
  | cons d ds ih =>
    rw [prefixStep_cons, List.getLast?_cons_cons]
    exact ih _ _

/-- Writing an arrival sequence appends it, in order, to the shared buffer
and touches nothing else. -/
theorem runWrites_eq {σ : Type} (st : MBTState σ)
    (arrivals : List (String × Nat)) :
    runWrites st arrivals = { st with buffer := st.buffer ++ arrivals } := by
  induction arrivals generalizing st with
  | nil => simp [runWrites]
  | cons p ps ih =>
    have h : runWrites st (p :: ps) = runWrites (mbtWrite st p.2 p.1) ps := rfl
    rw [h, ih]
    simp [mbtWrite]

/-- `countSig` is additive over list concatenation. -/
theorem countSig_append (x : HostSignal) (l₁ l₂ : List HostSignal) :
    countSig x (l₁ ++ l₂) = countSig x l₁ + countSig x l₂ := by
  induction l₁ with
  | nil => simp [countSig]
  | cons s rest ih => simp [countSig, ih]; omega

/-- Every coordinator step preserves the forwarding invariant. -/
theorem coordStep_inv (s : CoordState) (h : CoordInv s) (e : CoordEvent) :
    CoordInv (coordStep s e) := by
  obtain ⟨h1, h2, h3, h4, h5⟩ := h
  cases e with
  | hostExit =>
    simp only [coordStep]
    split
    · next he =>
      refine ⟨fun hc => absurd (h1 hc).1 (by simp [he]), ?_, ?_, ?_, ?_⟩ <;>
        simp [countSig_append, countSig]
      · intro hi
        exact h2 hi
      · omega
      · have := h3 he
        omega
    · exact ⟨h1, h2, h3, h4, h5⟩
  | hostInterrupt =>
    simp only [coordStep]
    split
    · next hi =>
      refine ⟨fun hc => absurd (h1 hc).2 (by simp [hi]), ?_, ?_, ?_, ?_⟩ <;>
        simp [countSig_append, countSig]
      · intro he
        exact h3 he
      · have := h2 hi
        omega
      · omega
    · exact ⟨h1, h2, h3, h4, h5⟩
  | childExit =>
    refine ⟨fun _ => ⟨rfl, rfl⟩, fun h' => ?_, fun h' => ?_, h4, h5⟩ <;>
      simp [coordStep] at h'

/-- The forwarding invariant holds after any event trace. -/
theorem coordRun_inv (events : List CoordEvent) : CoordInv (coordRun events) := by
  have h : ∀ s, CoordInv s → CoordInv (events.foldl coordStep s) := by
    induction events with
    | nil => exact fun s hs => hs
    | cons e es ih => exact fun s hs => ih _ (coordStep_inv s hs e)
  exact h coordInit ⟨by simp [coordInit], by simp [coordInit, countSig],
    by simp [coordInit, countSig], by simp [coordInit, countSig],
    by simp [coordInit, countSig]⟩

/-! ## Claim theorems -/

/-- **C3**: for every fixed input text and every partition of it into chunks,
the transform's concatenated output over the chunks (processed in order from
the initial owed state) equals its output on the whole text fed as one chunk,
and the final `needsPrefix` state agrees as well; in particular no logical
line is ever prefixed twice, however many chunks it spans. -/
theorem prefixing_rechunking_invariant (pre : List Char)
    (chunks : List (List Char)) :
    processChunks '\n' pre true chunks =
      prefixStep '\n' pre true chunks.flatten :=
  processChunks_eq_flatten '\n' pre chunks true

/-- **C6**: with prefix `"[P] "`, the single chunk
`"Line1\nLine2\nLine3\n"` produces exactly
`"[P] Line1\n[P] Line2\n[P] Line3\n"`, and the successive chunks
`"Line1\nPartia"`, `"lLine\nLine2\n"` produce exactly
`"[P] Line1\n[P] PartialLine\n[P] Line2\n"`. -/
theorem prefixing_scenarios :
    (processChunks '\n' "[P] ".toList true
        ["Line1\nLine2\nLine3\n".toList]).1 =
      "[P] Line1\n[P] Line2\n[P] Line3\n".toList ∧
    (processChunks '\n' "[P] ".toList true
        ["Line1\nPartia".toList, "lLine\nLine2\n".toList]).1 =
      "[P] Line1\n[P] PartialLine\n[P] Line2\n".toList := by
  constructor <;> decide

/-- **C10**: a chunk decoding to the empty string emits nothing and leaves
the `needsPrefix` cursor unchanged; after a nonempty chunk the cursor is owed
iff the decoded text ends with the line separator. -/
theorem prefixing_state_invariant (pre : List Char) (np : Bool)
    (text : List Char) :
    (text = [] → prefixStep '\n' pre np text = ([], np)) ∧
    (text ≠ [] → ((prefixStep '\n' pre np text).2 = true ↔
      text.getLast? = some '\n')) := by
  constructor
  · rintro rfl
    exact prefixStep_nil _ _ _
  · intro h
    obtain ⟨c, cs, rfl⟩ := List.exists_cons_of_ne_nil h
    exact prefixStep_snd_cons _ _ _ _ _

/-- Witness for `prefixing_state_invariant` at the chunk `"ok\n"`. -/
theorem prefixing_state_invariant_witness :
    ("ok\n".toList ≠ []) ∧
    ((prefixStep '\n' "[P] ".toList true "ok\n".toList).2 = true ↔
      "ok\n".toList.getLast? = some '\n') :=
  ⟨by decide,
    (prefixing_state_invariant "[P] ".toList true "ok\n".toList).2 (by decide)⟩

/-- **C1**: after any interleaved arrival sequence across the registered
channels, an unfiltered `flush()` pushes every buffered chunk, the global
push order is exactly the global arrival order, each sink receives exactly
its own channel's chunks in their arrival order, and the buffer is left
empty. -/
theorem mbt_flush_all_delivers_in_arrival_order (inputs : List Nat)
    (arrivals : List (String × Nat)) :
    (mbtFlush none (runWrites (mbtInit inputs) arrivals)).pushed = arrivals ∧
    (∀ i, sinkReceived i (mbtFlush none (runWrites (mbtInit inputs) arrivals)) =
      (arrivals.filter fun p => p.2 == i).map Prod.fst) ∧
    (mbtFlush none (runWrites (mbtInit inputs) arrivals)).buffer = [] := by
  rw [runWrites_eq]
  refine ⟨?_, fun i => ?_, rfl⟩ <;>
    simp [mbtFlush, mbtInit, selHits, sinkReceived]

/-- **C5**: flushing with a selector naming the registered input stream `s`
sitting at channel index `i` pushes exactly channel `i`'s buffered chunks, in
arrival order, into sink `i`; every other channel's buffered chunks are
permanently removed: no other sink receives anything, the buffer is left
empty, and a later unfiltered `flush()` pushes nothing further. -/
theorem mbt_flush_selector_exclusive (inputs : List Nat) (hnd : inputs.Nodup)
    (arrivals : List (String × Nat))
    (hv : ∀ p ∈ arrivals, p.2 < inputs.length)
    (i s : Nat) (hs : inputs[i]? = some s) :
    (mbtFlush (some s) (runWrites (mbtInit inputs) arrivals)).pushed =
      arrivals.filter (fun p => p.2 == i) ∧
    sinkReceived i (mbtFlush (some s) (runWrites (mbtInit inputs) arrivals)) =
      (arrivals.filter (fun p => p.2 == i)).map Prod.fst ∧
    (∀ j, j ≠ i →
      sinkReceived j (mbtFlush (some s) (runWrites (mbtInit inputs) arrivals))
        = []) ∧
    (mbtFlush (some s) (runWrites (mbtInit inputs) arrivals)).buffer = [] ∧
    (mbtFlush none
        (mbtFlush (some s) (runWrites (mbtInit inputs) arrivals))).pushed =
      (mbtFlush (some s) (runWrites (mbtInit inputs) arrivals)).pushed := by
  have key : ∀ p ∈ arrivals, selHits inputs (some s) p.2 = (p.2 == i) := by
    intro p hp
    have hlt := hv p hp
    simp only [selHits]
    by_cases hpi : p.2 = i
    · simp [hpi, hs]
    · have hne : inputs[p.2]? ≠ some s := fun hEq =>
        hpi (List.getElem?_inj hlt hnd (hEq.trans hs.symm))
      simp [hne, hpi]
  have hpushed :
      (mbtFlush (some s) (runWrites (mbtInit inputs) arrivals)).pushed =
        arrivals.filter (fun p => p.2 == i) := by
    rw [runWrites_eq]
    simp [mbtFlush, mbtInit, List.filter_congr key]
  refine ⟨hpushed, ?_, fun j hj => ?_, rfl, ?_⟩
  · have hself :
        (arrivals.filter (fun p => p.2 == i)).filter (fun p => p.2 == i) =
          arrivals.filter (fun p => p.2 == i) :=
      List.filter_eq_self.mpr fun a ha => (List.mem_filter.mp ha).2
    rw [sinkReceived, hpushed, hself]
  · have hnil :
        (arrivals.filter (fun p => p.2 == i)).filter (fun p => p.2 == j) =
          [] := by
      refine List.filter_eq_nil_iff.mpr fun a ha hja => ?_
      have h1 : a.2 = i := by simpa using (List.mem_filter.mp ha).2
      have h2 : a.2 = j := by simpa using hja
      exact hj (h2 ▸ h1)
    rw [sinkReceived, hpushed, hnil]
    rfl
  · rw [runWrites_eq]
    simp [mbtFlush, mbtInit]

/-- Witness for `mbt_flush_selector_exclusive`: channels `[10, 20]`, arrival
order `("hello", ch 0)`, `("world", ch 1)`, `("!", ch 0)`, selector = the
input stream `20` of channel `1`. -/
theorem mbt_flush_selector_exclusive_witness :
    ([10, 20] : List Nat).Nodup ∧
    (∀ p ∈ [("hello", 0), ("world", 1), ("!", 0)],
      p.2 < ([10, 20] : List Nat).length) ∧
    ([10, 20] : List Nat)[1]? = some 20 ∧
    ((mbtFlush (some 20) (runWrites (mbtInit [10, 20])
        [("hello", 0), ("world", 1), ("!", 0)])).pushed =
      [("hello", 0), ("world", 1), ("!", 0)].filter (fun p => p.2 == 1) ∧
    sinkReceived 1 (mbtFlush (some 20) (runWrites (mbtInit [10, 20])
        [("hello", 0), ("world", 1), ("!", 0)])) =
      ([("hello", 0), ("world", 1), ("!", 0)].filter
        (fun p => p.2 == 1)).map Prod.fst ∧
    (∀ j, j ≠ 1 →
      sinkReceived j (mbtFlush (some 20) (runWrites (mbtInit [10, 20])
        [("hello", 0), ("world", 1), ("!", 0)])) = []) ∧
    (mbtFlush (some 20) (runWrites (mbtInit [10, 20])
        [("hello", 0), ("world", 1), ("!", 0)])).buffer = [] ∧
    (mbtFlush none (mbtFlush (some 20) (runWrites (mbtInit [10, 20])
        [("hello", 0), ("world", 1), ("!", 0)]))).pushed =
      (mbtFlush (some 20) (runWrites (mbtInit [10, 20])
        [("hello", 0), ("world", 1), ("!", 0)])).pushed) :=
  ⟨by decide, by decide, by decide,
    mbt_flush_selector_exclusive [10, 20] (by decide)
      [("hello", 0), ("world", 1), ("!", 0)] (by decide) 1 20 (by decide)⟩

/-- **C2** (evaluation at the failing input): with one chunk `"oops"`
buffered from the child's stderr channel, `flushOutput("stderr")` pushes
nothing into any sink — `determineStream` maps `"stderr"` to the host stdout
stream, which `flush` then compares against the child streams recorded per
channel, matching no chunk — and the buffer is discarded, so the configured
error sink never receives the chunk, contrary to the claim. -/
theorem spawn_flushOutput_stderr_delivers_nothing :
    (flushOutputBuffered .stderr
        (runWrites spawnBufferInit [("oops", 1)])).pushed = [] ∧
    sinkReceived 1 (flushOutputBuffered .stderr
        (runWrites spawnBufferInit [("oops", 1)])) = [] ∧
    sinkReceived 0 (flushOutputBuffered .stderr
        (runWrites spawnBufferInit [("oops", 1)])) = [] ∧
    (flushOutputBuffered .stderr
        (runWrites spawnBufferInit [("oops", 1)])).buffer = [] := by
  decide

/-- **C9**: in buffered mode `flushOutput`, for every selector, flushes and
then destroys the output streams: afterwards the streams are destroyed and
the buffer is empty, and a second `flushOutput` with any selector pushes
nothing further into any sink. -/
theorem spawn_flushOutput_flush_then_destroy (sel : StreamSel)
    (st : MBTState StreamObj) :
    (flushOutputBuffered sel st).destroyed = true ∧
    (flushOutputBuffered sel st).buffer = [] ∧
    ∀ sel2, (flushOutputBuffered sel2 (flushOutputBuffered sel st)).pushed =
      (flushOutputBuffered sel st).pushed := by
  refine ⟨rfl, rfl, fun sel2 => ?_⟩
  simp [flushOutputBuffered, mbtDestroy, mbtFlush]

/-- **C8**: when the launch used inherit (immediate) mode, every call of the
captured flush capability raises the explicit buffering error and never
produces a flushed state, so nothing is delivered to any sink. -/
theorem spawn_flushOutput_inherit_throws (sel : StreamSel)
    (st : MBTState StreamObj) :
    spawnFlushOutput .inherit sel st =
      .error "Switch to 'buffered' output mode to flush buffers" ∧
    ∀ st2, spawnFlushOutput .inherit sel st ≠ .ok st2 :=
  ⟨rfl, fun _ h => Except.noConfusion h⟩

/-- Witness for `spawn_flushOutput_inherit_throws` at the `"stderr"` selector
on the freshly created buffer state. -/
theorem spawn_flushOutput_inherit_throws_witness :
    spawnFlushOutput .inherit .stderr spawnBufferInit =
      .error "Switch to 'buffered' output mode to flush buffers" ∧
    spawnFlushOutput .inherit .stderr spawnBufferInit ≠
      .ok (flushOutputBuffered .stderr spawnBufferInit) :=
  ⟨(spawn_flushOutput_inherit_throws .stderr spawnBufferInit).1,
    (spawn_flushOutput_inherit_throws .stderr spawnBufferInit).2
      (flushOutputBuffered .stderr spawnBufferInit)⟩

/-- **C4**: the exit handler resolves iff `code` is `0` and no signal is set;
otherwise it rejects with a failure carrying the command, the arguments, the
code, the signal and the captured flush capability, whose message is
`Running '<command>' failed` followed by ` (code = <code>)` when the code is
set and ` (signal = <signal>)` when the signal is set. -/
theorem spawn_exit_classification (command : String) (args : List String)
    (cap : OutputMode) (code : Option Int) (signal : Option String) :
    (classifyExit command args cap code signal = .resolved ↔
      code = some 0 ∧ signal = none) ∧
    (¬(code = some 0 ∧ signal = none) →
      classifyExit command args cap code signal =
        .rejected ⟨command, args, code, signal, cap,
          "Running '" ++ command ++ "' failed" ++
            (match code with
             | some c => " (code = " ++ toString c ++ ")"
             | none => "") ++
            (match signal with
             | some s => " (signal = " ++ s ++ ")"
             | none => "")⟩) := by
  constructor
  · by_cases h : code = some 0 ∧ signal = none <;>
      simp [classifyExit, h]
  · intro h
    simp [classifyExit, h, spawnFailureMessage]

/-- Witness for `spawn_exit_classification`: exit code `123` and no signal
rejects with message `Running 'cmd' failed (code = 123)`. -/
theorem spawn_exit_classification_witness :
    ¬((some (123 : Int)) = some 0 ∧ (none : Option String) = none) ∧
    classifyExit "cmd" ["a"] .buffered (some 123) none =
      .rejected ⟨"cmd", ["a"], some 123, none, .buffered,
        "Running 'cmd' failed (code = 123)"⟩ :=
  ⟨by decide, by
    rw [(spawn_exit_classification "cmd" ["a"] OutputMode.buffered
      (some 123) none).2 (by decide)]
    decide⟩

/-- **C7**: after any event trace, once the child's exit has been observed
both forwarding hooks are deregistered and no further host event forwards a
signal; each trigger's signal is forwarded at most once over the whole trace,
and a still-registered hook forwards exactly one signal when its trigger
fires. -/
theorem coord_forwarding (events : List CoordEvent) :
    ((coordRun events).childExited = true →
      (coordRun events).exitHook = false ∧
        (coordRun events).interruptHook = false) ∧
    ((coordRun events).childExited = true →
      ∀ e, (coordStep (coordRun events) e).sent = (coordRun events).sent) ∧
    countSig .sigint (coordRun events).sent ≤ 1 ∧
    countSig .sigterm (coordRun events).sent ≤ 1 ∧
    ((coordRun events).interruptHook = true →
      (coordStep (coordRun events) .hostInterrupt).sent =
        (coordRun events).sent ++ [.sigint]) ∧
    ((coordRun events).exitHook = true →
      (coordStep (coordRun events) .hostExit).sent =
        (coordRun events).sent ++ [.sigterm]) := by
  obtain ⟨h1, h2, h3, h4, h5⟩ := coordRun_inv events
  refine ⟨h1, fun hc e => ?_, h4, h5, fun hi => ?_, fun he => ?_⟩
  · cases e <;> simp [coordStep, (h1 hc).1, (h1 hc).2]
  · simp [coordStep, hi]
  · simp [coordStep, he]

/-- Witness for `coord_forwarding`: one interrupt, then the child exits; the
exit-observed state forwards nothing on any further event. -/
theorem coord_forwarding_witness :
    ((coordRun [CoordEvent.hostInterrupt, CoordEvent.childExit]).childExited
      = true) ∧
    (∀ e, (coordStep
        (coordRun [CoordEvent.hostInterrupt, CoordEvent.childExit]) e).sent =
      (coordRun [CoordEvent.hostInterrupt, CoordEvent.childExit]).sent) :=
  ⟨by decide,
    (coord_forwarding [CoordEvent.hostInterrupt, CoordEvent.childExit]).2.1
      (by decide)⟩

end Bufout
